import Mathlib

/-!
Shallow embedding of the thread-safe queue engine from davidstone/concurrent
(src/include/concurrent/queue.hpp and src/include/boost/concurrent/queue.hpp).

The backing container is embedded as a `List` whose head is the container's
front and whose end is where elements are appended.  Each operation of
`basic_queue_impl` runs under one lock acquisition, so its whole body is
embedded as one pure function from the pre-state of the container to the
post-state plus the observable effects (the condition-variable notifications
issued and the value returned by the policy hook).

Waiting is modelled sequentially: the Blocking policy's pre-insert hook waits
on `removal_signal` until `size(container) < max_size`; with no concurrent
remover running, a wait whose predicate is initially false never returns, so
`handle_add` yields `Option.none` in that case and the enclosing add
operation does not complete.
-/

namespace Concurrent

/-- Notification issued on a condition variable by one operation:
nothing, `notify_one`, or `notify_all`. -/
inductive Notify : Type
  | noSignal
  | one
  | all
deriving DecidableEq, Repr

/-- The policy hooks a derived queue supplies to `basic_queue_impl`
(the CRTP `derived().handle_add` / `handle_remove_all` / `handle_remove_one`
calls).  `handle_add` may mutate the container (the Dropping policy clears
it), may wait (the Blocking policy; `Option.none` means the wait predicate is
false, so sequentially the hook blocks), and returns a value of type `ρ`
(`Unit` for Unbounded and Blocking; the dropped count `Nat` for Dropping).
The remove hooks receive the container size from before the removal and
produce the notification issued on `removal_signal`. -/
structure Policy (α : Type) (ρ : Type) where
  handle_add : List α → Option (List α × ρ)
  handle_remove_all : Nat → Notify
  handle_remove_one : Nat → Notify

variable {α : Type} {ρ : Type}

/-- `basic_queue_impl::generic_add_impl`: runs the policy's pre-insert hook,
records whether the container is empty immediately before the insertion,
performs the insertion `add`, unlocks, and, if the container was empty,
notifies `addition_signal` — `notify_all` when the container supports
`pop_front` and the several-element form was used, `notify_one` otherwise.
Returns the new container, that notification, and the hook's return value. -/
def generic_add_impl (p : Policy α ρ) (adding_several pop_frontable : Bool)
    (add : List α → List α) (c : List α) : Option (List α × Notify × ρ) :=
  match p.handle_add c with
  | Option.none => Option.none
  | Option.some (c₁, r) =>
    let was_empty := c₁.isEmpty
    let c₂ := add c₁
    let sig :=
      if was_empty then
        if pop_frontable && adding_several then Notify.all else Notify.one
      else Notify.noSignal
    Option.some (c₂, sig, r)

/-- `basic_queue_impl::append`: inserts a whole range at the end under one
lock; the several-element flag is true for this form. -/
def append (p : Policy α ρ) (pop_frontable : Bool) (input : List α)
    (c : List α) : Option (List α × Notify × ρ) :=
  generic_add_impl p true pop_frontable (fun m => m ++ input) c

/-- `basic_queue_impl::emplace` (and `push`, which forwards to it): inserts a
single element at the end; the several-element flag is false for this form. -/
def emplace (p : Policy α ρ) (pop_frontable : Bool) (x : α)
    (c : List α) : Option (List α × Notify × ρ) :=
  generic_add_impl p false pop_frontable (fun m => m ++ [x]) c

/-- `basic_queue_impl::push` forwards to `emplace`. -/
def push (p : Policy α ρ) (pop_frontable : Bool) (x : α)
    (c : List α) : Option (List α × Notify × ρ) :=
  emplace p pop_frontable x c

/-- Outcome of `generic_non_blocking_add`.  `lockBusy c` embeds the
`try_to_lock` failure: the function returns `false` and the container is
left unchanged (it still holds `c`).  `hookWaits` embeds the case where the
lock was obtained but the pre-insert hook's wait predicate is false, so the
call blocks inside `handle_add`.  `added` embeds the completed add: the
function returns `true` having produced the new container, the
`addition_signal` notification, and the hook's return value. -/
inductive NonBlockingOutcome (α : Type) (ρ : Type) : Type
  | lockBusy (c : List α)
  | hookWaits
  | added (c : List α) (sig : Notify) (r : ρ)
deriving DecidableEq

/-- `basic_queue_impl::generic_non_blocking_add`: tries the lock without
blocking (`lock_obtainable` says whether `try_to_lock` succeeds); on failure
returns `false` with the container unchanged, otherwise runs
`generic_add_impl` — including the policy's pre-insert hook — and returns
`true`. -/
def generic_non_blocking_add (p : Policy α ρ) (adding_several pop_frontable : Bool)
    (lock_obtainable : Bool) (add : List α → List α) (c : List α) :
    NonBlockingOutcome α ρ :=
  if lock_obtainable then
    match generic_add_impl p adding_several pop_frontable add c with
    | Option.none => NonBlockingOutcome.hookWaits
    | Option.some (c', sig, r) => NonBlockingOutcome.added c' sig r
  else
    NonBlockingOutcome.lockBusy c

/-- `basic_queue_impl::non_blocking_append`. -/
def non_blocking_append (p : Policy α ρ) (pop_frontable lock_obtainable : Bool)
    (input : List α) (c : List α) : NonBlockingOutcome α ρ :=
  generic_non_blocking_add p true pop_frontable lock_obtainable
    (fun m => m ++ input) c

/-- `basic_queue_impl::non_blocking_emplace` (and `non_blocking_push`, which
forwards to it). -/
def non_blocking_emplace (p : Policy α ρ) (pop_frontable lock_obtainable : Bool)
    (x : α) (c : List α) : NonBlockingOutcome α ρ :=
  generic_non_blocking_add p false pop_frontable lock_obtainable
    (fun m => m ++ [x]) c

/-- `basic_queue_impl::generic_pop_all`: swaps the queue's container with
`storage`, calls `handle_remove_all` with the size of `storage` after the
swap (the pre-removal container size), unlocks, and returns `storage`.
Result: (returned container, container left in the queue, notification
issued on `removal_signal`). -/
def generic_pop_all (p : Policy α ρ) (c storage : List α) :
    List α × List α × Notify :=
  let m_container := storage
  let storage' := c
  let sig := p.handle_remove_all storage'.length
  (storage', m_container, sig)

/-- `basic_queue_impl::try_pop_all`: a single plain lock acquisition followed
by `generic_pop_all`; never waits for data. -/
def try_pop_all (p : Policy α ρ) (c storage : List α) :
    List α × List α × Notify :=
  generic_pop_all p c storage

/-- `basic_queue_impl::generic_pop_one`: requires a non-empty container (all
callers guarantee this; `Option.none` embeds the unreachable empty case);
moves out the front element, pops the front, and calls `handle_remove_one`
with the pre-removal size.  Result: (front element, remaining container,
notification issued on `removal_signal`). -/
def generic_pop_one (p : Policy α ρ) (c : List α) :
    Option (α × List α × Notify) :=
  match c with
  | [] => Option.none
  | x :: rest =>
    let previous_size := (x :: rest).length
    let sig := p.handle_remove_one previous_size
    Option.some (x, rest, sig)

/-- `basic_queue_impl::clear`: under one lock, records the size, clears the
container, and calls `handle_remove_all` with the pre-clear size. -/
def clear (p : Policy α ρ) (c : List α) : List α × Notify :=
  let previous_size := c.length
  ([], p.handle_remove_all previous_size)

/-- `basic_unbounded_queue`'s hooks: `handle_add` is a no-op that never
waits; both remove hooks are no-ops. -/
def unboundedPolicy (α : Type) : Policy α Unit where
  handle_add := fun c => Option.some (c, ())
  handle_remove_all := fun _ => Notify.noSignal
  handle_remove_one := fun _ => Notify.noSignal

/-- `basic_blocking_queue`'s hooks: `handle_add` waits on `removal_signal`
until `size(queue) < m_max_size` (sequentially: blocks, i.e. `Option.none`,
whenever the predicate is initially false); `handle_remove_all` issues
`notify_all` and `handle_remove_one` issues `notify_one` on
`removal_signal` when the pre-removal size was at least `m_max_size`. -/
def blockingPolicy (α : Type) (m_max_size : Nat) : Policy α Unit where
  handle_add := fun c =>
    if c.length < m_max_size then Option.some (c, ()) else Option.none
  handle_remove_all := fun previous_size =>
    if previous_size ≥ m_max_size then Notify.all else Notify.noSignal
  handle_remove_one := fun previous_size =>
    if previous_size ≥ m_max_size then Notify.one else Notify.noSignal

/-- `basic_dropping_queue`'s hooks: `handle_add` never waits; if
`size(queue) < m_max_size` it returns 0, otherwise it clears the container
and returns the number of skipped (dropped) elements.  Both remove hooks
are no-ops. -/
def droppingPolicy (α : Type) (m_max_size : Nat) : Policy α Nat where
  handle_add := fun c =>
    if c.length < m_max_size then Option.some (c, 0)
    else Option.some ([], c.length)
  handle_remove_all := fun _ => Notify.noSignal
  handle_remove_one := fun _ => Notify.noSignal

/-- State of a constructed `basic_blocking_queue`: the stored bound and the
default-initialized (empty) container of the `basic_queue_impl` base. -/
structure basic_blocking_queue (α : Type) : Type where
  m_max_size : Nat
  m_container : List α
deriving DecidableEq, Repr

/-- The `basic_blocking_queue` constructor: stores `max_size_` into
`m_max_size`, default-initializes the base (empty container), and performs
no check on the value of `max_size_`. -/
def mk_basic_blocking_queue (α : Type) (max_size_ : Nat) :
    basic_blocking_queue α :=
  { m_max_size := max_size_, m_container := [] }

/-- State of a constructed `basic_dropping_queue`: the stored bound and the
default-initialized (empty) container of the `basic_queue_impl` base. -/
structure basic_dropping_queue (α : Type) : Type where
  m_max_size : Nat
  m_container : List α
deriving DecidableEq, Repr

/-- The `basic_dropping_queue` constructor: stores `max_size_` into
`m_max_size`, default-initializes the base (empty container), and performs
no check on the value of `max_size_`. -/
def mk_basic_dropping_queue (α : Type) (max_size_ : Nat) :
    basic_dropping_queue α :=
  { m_max_size := max_size_, m_container := [] }

/-- Modelled from the spec: the constructor §7 describes, with the fatal
precondition check rejecting a zero bound at construction of a bounded
queue ("bound of zero at construction of a bounded queue. Fatal:
terminates the operation").  The source constructors perform no such
check; this definition exists only to be compared with them. -/
def spec_checked_bounded_ctor (α : Type) (max_size_ : Nat) :
    Option (basic_blocking_queue α) :=
  if max_size_ = 0 then Option.none
  else Option.some (mk_basic_blocking_queue α max_size_)

/-- One add operation of a producer sequence: a single-element `push` or a
range `append`. -/
inductive AddOp (α : Type) : Type
  | pushOne (x : α)
  | appendMany (xs : List α)
deriving DecidableEq, Repr

/-- The elements an add operation inserts at the end of the container. -/
def AddOp.elems : AddOp α → List α
  | AddOp.pushOne x => [x]
  | AddOp.appendMany xs => xs

/-- Dispatches one add operation to `emplace` or `append`. -/
def addOp (p : Policy α ρ) (pop_frontable : Bool) (op : AddOp α)
    (c : List α) : Option (List α × Notify × ρ) :=
  match op with
  | AddOp.pushOne x => emplace p pop_frontable x c
  | AddOp.appendMany xs => append p pop_frontable xs c

/-- Runs a sequence of add operations with no intervening removal,
collecting the hook return values (for the Dropping policy: the dropped
counts).  `Option.none` means some add in the sequence blocked. -/
def runAdds (p : Policy α ρ) (pop_frontable : Bool) :
    List (AddOp α) → List α → Option (List α × List ρ)
  | [], c => Option.some (c, [])
  | op :: ops, c =>
    match addOp p pop_frontable op c with
    | Option.none => Option.none
    | Option.some (c', _, r) =>
      match runAdds p pop_frontable ops c' with
      | Option.none => Option.none
      | Option.some (cF, rs) => Option.some (cF, r :: rs)

/-- Performs `n` successive `pop_one` calls, collecting the popped values in
order; stops early (only possible on an empty container) leaving the rest. -/
def popOneMany (p : Policy α ρ) : Nat → List α → List α × List α
  | 0, c => ([], c)
  | n + 1, c =>
    match generic_pop_one p c with
    | Option.none => ([], c)
    | Option.some (v, c', _) =>
      let pr := popOneMany p n c'
      (v :: pr.1, pr.2)

/-- Running a concatenation of two add sequences composes the runs. -/
theorem runAdds_append_ops (p : Policy α ρ) (pf : Bool)
    (ops₁ ops₂ : List (AddOp α)) (c : List α) :
    runAdds p pf (ops₁ ++ ops₂) c =
      match runAdds p pf ops₁ c with
      | Option.none => Option.none
      | Option.some (c', rs₁) =>
        match runAdds p pf ops₂ c' with
        | Option.none => Option.none
        | Option.some (cF, rs₂) => Option.some (cF, rs₁ ++ rs₂)
    := by
  induction ops₁ generalizing c with
  | nil =>
    cases h : runAdds p pf ops₂ c <;> simp [runAdds, h]
  | cons op ops ih =>
    cases h : addOp p pf op c with
    | none => simp [runAdds, h]
    | some pr =>
      obtain ⟨c', sig, r⟩ := pr
      cases h1 : runAdds p pf ops c' with
      | none => simp [runAdds, h, ih, h1]
      | some pr1 =>
        obtain ⟨cM, rs₁⟩ := pr1
        cases h2 : runAdds p pf ops₂ cM with
        | none => simp [runAdds, h, ih, h1, h2]
        | some pr2 =>
          obtain ⟨cF, rs₂⟩ := pr2
          simp [runAdds, h, ih, h1, h2]

/-- One add on a Dropping queue: the pre-insert hook keeps the container if
its size is below the bound and clears it otherwise, the new elements go at
the end, and the hook reports 0 or the previous size as the dropped count. -/
theorem dropping_addOp_parts (B : Nat) (pf : Bool) (op : AddOp α)
    (c : List α) :
    ∃ sig, addOp (droppingPolicy α B) pf op c =
      Option.some ((if c.length < B then c else []) ++ op.elems, sig,
        if c.length < B then 0 else c.length) := by
  cases op with
  | pushOne x =>
    by_cases h : c.length < B <;>
      simp [addOp, emplace, generic_add_impl, droppingPolicy, AddOp.elems, h]
  | appendMany xs =>
    by_cases h : c.length < B <;>
      simp [addOp, append, generic_add_impl, droppingPolicy, AddOp.elems, h]

/-- Pushing elements one at a time onto a Dropping queue that has room for
all of them appends them without dropping anything. -/
theorem dropping_pushes (B : Nat) (pf : Bool) (xs c : List α)
    (h : c.length + xs.length ≤ B) :
    runAdds (droppingPolicy α B) pf (xs.map AddOp.pushOne) c =
      Option.some (c ++ xs, List.replicate xs.length 0) := by
  induction xs generalizing c with
  | nil => simp [runAdds]
  | cons x xs ih =>
    have hlt : c.length < B := by
      simp only [List.length_cons] at h
      omega
    have hstep : addOp (droppingPolicy α B) pf (AddOp.pushOne x) c =
        Option.some (c ++ [x], Notify.one, 0) ∨
        addOp (droppingPolicy α B) pf (AddOp.pushOne x) c =
        Option.some (c ++ [x], Notify.noSignal, 0) := by
      by_cases he : c.isEmpty <;>
        simp [addOp, emplace, generic_add_impl, droppingPolicy, hlt, he]
    have hrest : runAdds (droppingPolicy α B) pf (xs.map AddOp.pushOne)
        (c ++ [x]) = Option.some (c ++ [x] ++ xs, List.replicate xs.length 0) := by
      apply ih
      simp only [List.length_append, List.length_singleton]
      simp only [List.length_cons] at h
      omega
    rcases hstep with hstep | hstep <;>
      simp [runAdds, hstep, hrest, List.replicate_succ, List.append_assoc]

/-- C1 (amended): for every policy whose pre-insert hook completes, every
add form signals `addition_signal` exactly when the container is empty
immediately before the insertion (after the hook has run), and in that case
signals all waiters exactly when the container supports efficient
front-removal and the several-element form (`append` /
`non_blocking_append`) was used — regardless of how many elements that form
actually inserts — and one waiter otherwise. -/
theorem c1_signal_discipline (p : Policy α ρ) (pf : Bool) (input : List α)
    (x : α) (c c₁ : List α) (r : ρ)
    (hhook : p.handle_add c = Option.some (c₁, r)) :
    append p pf input c =
      Option.some (c₁ ++ input,
        if c₁.isEmpty then (if pf then Notify.all else Notify.one)
        else Notify.noSignal, r) ∧
    emplace p pf x c =
      Option.some (c₁ ++ [x],
        if c₁.isEmpty then Notify.one else Notify.noSignal, r) ∧
    non_blocking_append p pf true input c =
      NonBlockingOutcome.added (c₁ ++ input)
        (if c₁.isEmpty then (if pf then Notify.all else Notify.one)
         else Notify.noSignal) r ∧
    non_blocking_emplace p pf true x c =
      NonBlockingOutcome.added (c₁ ++ [x])
        (if c₁.isEmpty then Notify.one else Notify.noSignal) r := by
  refine ⟨?_, ?_, ?_, ?_⟩ <;>
    by_cases he : c₁.isEmpty <;>
      simp [append, emplace, non_blocking_append, non_blocking_emplace,
        generic_non_blocking_add, generic_add_impl, hhook, he]

/-- C1 witness: the amended signal discipline evaluated on the unbounded
queue over `Nat` with an empty container. -/
theorem c1_signal_discipline_witness :
    append (unboundedPolicy Nat) true [1, 2] [] =
      Option.some ([1, 2], Notify.all, ()) ∧
    emplace (unboundedPolicy Nat) true 5 [] =
      Option.some ([5], Notify.one, ()) ∧
    non_blocking_append (unboundedPolicy Nat) true true [1, 2] [] =
      NonBlockingOutcome.added [1, 2] Notify.all () ∧
    non_blocking_emplace (unboundedPolicy Nat) true true 5 [] =
      NonBlockingOutcome.added [5] Notify.one () :=
  c1_signal_discipline (unboundedPolicy Nat) true [1, 2] 5 [] [] () rfl

/-- C1 counterexample: appending a one-element range to an empty queue whose
container supports efficient front-removal notifies *all* waiters, although
only one element was just added — the claim requires exactly one waiter to
be signaled in that case.  The notify-all condition in the source is the
form of the call (`adding_several`), not the number of elements added. -/
theorem c1_counterexample :
    append (unboundedPolicy Nat) true [5] [] =
      Option.some ([5], Notify.all, ()) ∧
    ([5] : List Nat).length = 1 ∧
    Notify.all ≠ Notify.one := by
  refine ⟨?_, rfl, by decide⟩
  rfl

/-- C2: on a Dropping queue with bound `B ≥ 1`, pushing `B` elements one at
a time starting from empty and then pushing one more leaves exactly the
overflowing element (so `size() == 1`), having dropped nothing on the first
`B` pushes and all `B` elements on the last one, and `pop_all` then returns
exactly that one element, leaving the queue empty. -/
theorem c2_drop_on_overflow (B : Nat) (hB : 1 ≤ B) (xs : List α)
    (hxs : xs.length = B) (y : α) (pf : Bool) :
    runAdds (droppingPolicy α B) pf
        (xs.map AddOp.pushOne ++ [AddOp.pushOne y]) [] =
      Option.some ([y], List.replicate B 0 ++ [B]) ∧
    ([y] : List α).length = 1 ∧
    generic_pop_all (droppingPolicy α B) [y] [] =
      ([y], [], Notify.noSignal) := by
  refine ⟨?_, rfl, rfl⟩
  have hfirst : runAdds (droppingPolicy α B) pf (xs.map AddOp.pushOne) [] =
      Option.some (xs, List.replicate xs.length 0) := by
    have := dropping_pushes B pf xs [] (by simp [hxs])
    simpa using this
  have hnotlt : ¬ xs.length < B := by omega
  have hlast : addOp (droppingPolicy α B) pf (AddOp.pushOne y) xs =
      Option.some ([y], Notify.one, B) := by
    simp [addOp, emplace, generic_add_impl, droppingPolicy, hnotlt, hxs]
  rw [runAdds_append_ops, hfirst]
  simp [runAdds, hlast, hxs]

/-- C2 witness: bound 1, push one element then another on a Dropping queue
over `Nat`; only the overflowing element remains and `pop_all` returns it. -/
theorem c2_drop_on_overflow_witness :
    runAdds (droppingPolicy Nat 1) false
        ([10].map AddOp.pushOne ++ [AddOp.pushOne 20]) [] =
      Option.some ([20], List.replicate 1 0 ++ [1]) ∧
    ([20] : List Nat).length = 1 ∧
    generic_pop_all (droppingPolicy Nat 1) [20] [] =
      ([20], [], Notify.noSignal) :=
  c2_drop_on_overflow 1 (by decide) [10] rfl 20 false

/-- C3 counterexample: on a blocking queue with bound 1 whose container
already holds one element, `non_blocking_append` that obtains the lock runs
the pre-insert hook, which waits on `removal_signal` because the bound is
reached — the claim says a non-blocking add never invokes a blocking
pre-insert hook path that would wait. -/
theorem c3_counterexample :
    non_blocking_append (blockingPolicy Nat 1) false true [7] [0] =
      NonBlockingOutcome.hookWaits ∧
    non_blocking_emplace (blockingPolicy Nat 1) false true 7 [0] =
      NonBlockingOutcome.hookWaits := by
  constructor <;> rfl

/-- C3 (amended): `non_blocking_append` / `non_blocking_emplace` proceed
only if the lock is immediately obtainable, returning `false` with the
queue state unchanged otherwise; but once the lock is obtained they do
invoke the policy's pre-insert hook, so on a blocking queue whose size is
at or above its bound the call waits on `removal_signal` inside the hook. -/
theorem c3_non_blocking_lock_only (p : Policy α ρ) (pf : Bool)
    (input c : List α) (x : α) (B : Nat) (hfull : B ≤ c.length) :
    non_blocking_append p pf false input c =
      NonBlockingOutcome.lockBusy c ∧
    non_blocking_emplace p pf false x c =
      NonBlockingOutcome.lockBusy c ∧
    non_blocking_append (blockingPolicy α B) pf true input c =
      NonBlockingOutcome.hookWaits ∧
    non_blocking_emplace (blockingPolicy α B) pf true x c =
      NonBlockingOutcome.hookWaits := by
  have hnlt : ¬ c.length < B := by omega
  refine ⟨rfl, rfl, ?_, ?_⟩ <;>
    simp [non_blocking_append, non_blocking_emplace,
      generic_non_blocking_add, generic_add_impl, blockingPolicy, hnlt]

/-- C3 witness: the amended statement evaluated on a blocking queue over
`Nat` with bound 1 and a container already holding one element. -/
theorem c3_non_blocking_lock_only_witness :
    non_blocking_append (unboundedPolicy Nat) false false [7] [0] =
      NonBlockingOutcome.lockBusy [0] ∧
    non_blocking_emplace (unboundedPolicy Nat) false false 7 [0] =
      NonBlockingOutcome.lockBusy [0] ∧
    non_blocking_append (blockingPolicy Nat 1) false true [7] [0] =
      NonBlockingOutcome.hookWaits ∧
    non_blocking_emplace (blockingPolicy Nat 1) false true 7 [0] =
      NonBlockingOutcome.hookWaits :=
  c3_non_blocking_lock_only (unboundedPolicy Nat) false [7] [0] 7 1
    (by decide)

/-- C4 counterexample: both bounded-queue constructors accept a bound of
zero and yield a constructed queue object (they store the bound and
default-initialize the container, with no precondition check), whereas the
constructor the spec describes would reject zero — refuting "a zero bound
never yields a successfully constructed queue object". -/
theorem c4_counterexample :
    mk_basic_blocking_queue Nat 0 = { m_max_size := 0, m_container := [] } ∧
    mk_basic_dropping_queue Nat 0 = { m_max_size := 0, m_container := [] } ∧
    spec_checked_bounded_ctor Nat 0 = Option.none :=
  ⟨rfl, rfl, rfl⟩

/-- C4 (amended): the bounded-queue constructors perform no precondition
check: any bound, zero included, yields a constructed queue storing that
bound with an empty container.  A blocking queue with bound zero then makes
every add wait forever; a dropping queue with bound zero clears the
container on every add and drops everything previously queued. -/
theorem c4_no_precondition_check (b : Nat) (x : α) (c : List α) (pf : Bool) :
    mk_basic_blocking_queue α b = { m_max_size := b, m_container := [] } ∧
    mk_basic_dropping_queue α b = { m_max_size := b, m_container := [] } ∧
    emplace (blockingPolicy α 0) pf x c = Option.none ∧
    emplace (droppingPolicy α 0) pf x c =
      Option.some ([x], Notify.one, c.length) := by
  refine ⟨rfl, rfl, ?_, ?_⟩ <;>
    simp [emplace, generic_add_impl, blockingPolicy, droppingPolicy]

/-- C5 counterexample: on a blocking queue with bound 1, appending the
two-element batch `[1, 2]` to an empty container is admitted without
blocking (the pre-insert predicate `0 < 1` holds), yet leaves the container
at size 2, which exceeds the bound — refuting "no add operation that was
admitted without blocking ever leaves size greater than B". -/
theorem c5_counterexample :
    append (blockingPolicy Nat 1) false [1, 2] [] =
      Option.some ([1, 2], Notify.one, ()) ∧
    ([1, 2] : List Nat).length > 1 := by
  constructor <;> decide

/-- C5 (amended): on a blocking queue with bound `B`, a single-element add
admitted without blocking never leaves the container above `B`; a batch
`append` admitted without blocking entered with `size < B`, so it leaves at
most `B - 1` plus the batch size (it may exceed `B` by up to the batch size
minus one). -/
theorem c5_bound_after_admitted_add (B : Nat) (x : α) (input c c' : List α)
    (sig : Notify) (pf : Bool) :
    (emplace (blockingPolicy α B) pf x c = Option.some (c', sig, ()) →
      c'.length ≤ B) ∧
    (append (blockingPolicy α B) pf input c = Option.some (c', sig, ()) →
      c.length < B ∧ c'.length + 1 ≤ B + input.length) := by
  constructor
  · intro h
    by_cases hlt : c.length < B
    · simp only [emplace, generic_add_impl, blockingPolicy, if_pos hlt] at h
      simp only [Option.some.injEq, Prod.mk.injEq] at h
      obtain ⟨h1, -⟩ := h
      subst h1
      simp only [List.length_append, List.length_singleton]
      omega
    · simp [emplace, generic_add_impl, blockingPolicy, hlt] at h
  · intro h
    by_cases hlt : c.length < B
    · simp only [append, generic_add_impl, blockingPolicy, if_pos hlt] at h
      simp only [Option.some.injEq, Prod.mk.injEq] at h
      obtain ⟨h1, -⟩ := h
      subst h1
      simp only [List.length_append]
      omega
    · simp [append, generic_add_impl, blockingPolicy, hlt] at h

/-- C5 witness: bound 1, a single push onto an empty blocking queue is
admitted and leaves size 1 ≤ 1. -/
theorem c5_bound_after_admitted_add_witness : ([0] : List Nat).length ≤ 1 :=
  (c5_bound_after_admitted_add 1 0 [] [] [0] Notify.one false).1 rfl

/-- C6: on a blocking queue with bound `B`, the post-remove hooks invoked
by `pop_all`, `pop_one`, and `clear` signal `removal_signal` exactly when
the container size immediately before the removal was at least `B`:
`notify_all` after the bulk removals (`pop_all`, `clear`) and `notify_one`
after a single-element `pop_one`. -/
theorem c6_removal_signals (B : Nat) (c storage rest : List α) (x : α) :
    (generic_pop_all (blockingPolicy α B) c storage).2.2 =
      (if B ≤ c.length then Notify.all else Notify.noSignal) ∧
    (clear (blockingPolicy α B) c).2 =
      (if B ≤ c.length then Notify.all else Notify.noSignal) ∧
    generic_pop_one (blockingPolicy α B) (x :: rest) =
      Option.some (x, rest,
        if B ≤ rest.length + 1 then Notify.one else Notify.noSignal) := by
  refine ⟨?_, ?_, ?_⟩ <;>
    simp [generic_pop_all, clear, generic_pop_one, blockingPolicy]

/-- Pushing elements one at a time onto an unbounded queue appends them in
order at the end without ever blocking. -/
theorem unbounded_pushes (pf : Bool) (xs c : List α) :
    runAdds (unboundedPolicy α) pf (xs.map AddOp.pushOne) c =
      Option.some (c ++ xs, List.replicate xs.length ()) := by
  induction xs generalizing c with
  | nil => simp [runAdds]
  | cons x xs ih =>
    have hstep : addOp (unboundedPolicy α) pf (AddOp.pushOne x) c =
        Option.some (c ++ [x], Notify.one, ()) ∨
        addOp (unboundedPolicy α) pf (AddOp.pushOne x) c =
        Option.some (c ++ [x], Notify.noSignal, ()) := by
      by_cases he : c.isEmpty <;>
        simp [addOp, emplace, generic_add_impl, unboundedPolicy, he]
    rcases hstep with hstep | hstep <;>
      simp [runAdds, hstep, ih, List.replicate_succ, List.append_assoc]

/-- Popping one element at a time as many times as the container holds
returns every element, front first. -/
theorem popOneMany_drains (p : Policy α ρ) (xs : List α) :
    popOneMany p xs.length xs = (xs, []) := by
  induction xs with
  | nil => simp [popOneMany]
  | cons x rest ih => simp [popOneMany, generic_pop_one, ih]

/-- C7: `pop_one` on a non-empty queue removes and returns exactly the
front element; a sequence of `push` calls with no intervening removal
appends the values in order, and successive `pop_one` calls return them in
that same order (FIFO). -/
theorem c7_fifo (p : Policy α ρ) (x : α) (rest xs : List α) (pf : Bool) :
    generic_pop_one p (x :: rest) =
      Option.some (x, rest, p.handle_remove_one (rest.length + 1)) ∧
    runAdds (unboundedPolicy α) pf (xs.map AddOp.pushOne) [] =
      Option.some (xs, List.replicate xs.length ()) ∧
    popOneMany p xs.length xs = (xs, []) := by
  refine ⟨by simp [generic_pop_one], ?_, popOneMany_drains p xs⟩
  simpa using unbounded_pushes pf xs []

/-- Conservation on a Dropping queue: over any add sequence, the starting
size plus every element handed to an add equals the dropped counts the adds
reported plus the elements still in the container. -/
theorem dropping_conservation (B : Nat) (pf : Bool) (ops : List (AddOp α))
    (c cF : List α) (rs : List Nat)
    (h : runAdds (droppingPolicy α B) pf ops c = Option.some (cF, rs)) :
    c.length + (ops.map (fun o => o.elems.length)).sum =
      rs.sum + cF.length := by
  induction ops generalizing c rs with
  | nil =>
    simp only [runAdds, Option.some.injEq, Prod.mk.injEq] at h
    obtain ⟨h1, h2⟩ := h
    subst h1
    subst h2
    simp
  | cons op ops ih =>
    obtain ⟨sig, hstep⟩ := dropping_addOp_parts B pf op c
    simp only [runAdds, hstep] at h
    cases h1 : runAdds (droppingPolicy α B) pf ops
        ((if c.length < B then c else []) ++ op.elems) with
    | none => rw [h1] at h; exact absurd h (by simp)
    | some pr =>
      obtain ⟨cM, rs'⟩ := pr
      rw [h1] at h
      simp only [Option.some.injEq, Prod.mk.injEq] at h
      obtain ⟨hcF, hrs⟩ := h
      subst hcF
      subst hrs
      have hrec := ih _ _ h1
      simp only [List.length_append] at hrec
      by_cases hlt : c.length < B <;>
        simp only [if_pos, if_neg, hlt, ite_true, ite_false, List.map_cons,
          List.sum_cons, List.length_nil] at hrec ⊢ <;>
        omega

/-- C8: every add on a Dropping queue with bound `B` reports the dropped
count — 0 when the container size before the add was below `B`, otherwise
the entire previous size, all of those elements being removed before the
new elements are inserted — and over any sequence of adds from empty the
reported dropped counts plus the elements remaining equal the total
elements pushed. -/
theorem c8_dropped_accounting (B : Nat) (pf : Bool) (op : AddOp α)
    (ops : List (AddOp α)) (c c₁ cF : List α) (sig : Notify) (d : Nat)
    (rs : List Nat)
    (hstep : addOp (droppingPolicy α B) pf op c = Option.some (c₁, sig, d))
    (hrun : runAdds (droppingPolicy α B) pf ops [] = Option.some (cF, rs)) :
    (d = if c.length < B then 0 else c.length) ∧
    (c₁ = (if c.length < B then c else []) ++ op.elems) ∧
    ((ops.map (fun o => o.elems.length)).sum = rs.sum + cF.length) := by
  obtain ⟨sig', hparts⟩ := dropping_addOp_parts B pf op c
  rw [hstep] at hparts
  simp only [Option.some.injEq, Prod.mk.injEq] at hparts
  obtain ⟨h1, -, h3⟩ := hparts
  refine ⟨h3, h1, ?_⟩
  have := dropping_conservation B pf ops [] cF rs hrun
  simpa using this

/-- C8 witness: bound 1, one overflowing push on `[9]` reports 1 dropped,
and a two-push run from empty reports drops `[0, 1]` with one element left:
2 pushed = 1 dropped + 1 remaining. -/
theorem c8_dropped_accounting_witness :
    ((1 : Nat) = if ([9] : List Nat).length < 1 then 0
      else ([9] : List Nat).length) ∧
    (([3] : List Nat) = (if ([9] : List Nat).length < 1 then [9] else []) ++
      (AddOp.pushOne 3).elems) ∧
    ((([AddOp.pushOne 1, AddOp.pushOne 2] : List (AddOp Nat)).map
        (fun o => o.elems.length)).sum =
      ([0, 1] : List Nat).sum + ([2] : List Nat).length) :=
  c8_dropped_accounting 1 false (AddOp.pushOne 3)
    [AddOp.pushOne 1, AddOp.pushOne 2] [9] [3] [2] Notify.one 1 [0, 1]
    rfl rfl

/-- C9: `pop_all` and `try_pop_all` swap the queue's container with the
storage argument: the returned container is exactly what was in the queue,
the queue is left holding exactly the storage argument's prior elements
(so non-empty storage injects its elements into the queue), and the queue
ends up empty precisely when the storage argument was empty. -/
theorem c9_pop_all_swaps (p : Policy α ρ) (c storage : List α) :
    generic_pop_all p c storage =
      (c, storage, p.handle_remove_all c.length) ∧
    try_pop_all p c storage =
      (c, storage, p.handle_remove_all c.length) ∧
    ((generic_pop_all p c storage).2.1 = [] ↔ storage = []) := by
  exact ⟨rfl, rfl, Iff.rfl⟩

/-- C10: on a Dropping queue at or above its bound, an add that triggers a
drop always signals `addition_signal`: the was-empty check runs after the
pre-insert hook has cleared the container, so it observes an empty
container and a signal (one waiter for `push`/`emplace`, all waiters for a
pop-frontable `append`) is always issued. -/
theorem c10_drop_always_signals (B : Nat) (pf : Bool) (x : α)
    (input c : List α) (h : B ≤ c.length) :
    emplace (droppingPolicy α B) pf x c =
      Option.some ([x], Notify.one, c.length) ∧
    append (droppingPolicy α B) pf input c =
      Option.some (input, if pf then Notify.all else Notify.one, c.length) ∧
    Notify.one ≠ Notify.noSignal ∧ Notify.all ≠ Notify.noSignal := by
  have hnlt : ¬ c.length < B := by omega
  refine ⟨?_, ?_, by decide, by decide⟩ <;>
    simp [emplace, append, generic_add_impl, droppingPolicy, hnlt]

/-- C10 witness: bound 1 with container `[9]`: a push and a pop-frontable
append both drop the old element and both signal `addition_signal`. -/
theorem c10_drop_always_signals_witness :
    emplace (droppingPolicy Nat 1) true 5 [9] =
      Option.some ([5], Notify.one, ([9] : List Nat).length) ∧
    append (droppingPolicy Nat 1) true [6, 7] [9] =
      Option.some ([6, 7], if true then Notify.all else Notify.one,
        ([9] : List Nat).length) ∧
    Notify.one ≠ Notify.noSignal ∧ Notify.all ≠ Notify.noSignal :=
  c10_drop_always_signals 1 true 5 [6, 7] [9] (by decide)

end Concurrent
